import Mathlib

/-!
Shallow embedding of the pycamv modification-resolution core
(`pycamv/search.py` and `pycamv/discoverer.py`).

Python strings are modelled as Lean `String`s; Python `tuple`/`list`
values holding residue letters are modelled by `PySeq`, which records
which of the two kinds the value is, because Python's `==` never
identifies a tuple with a list even when their elements agree.
Machine integers are `Nat`/`Int` (Python ints are unbounded).
Raised exceptions are modelled with `Except`.
-/

/-- Python `tuple`-vs-`list` distinction for residue-letter sequences.
`_check_mods` in `search.py` asserts that the letters of every modification
entry are a tuple of strings; list literals also occur in `_calc_num_comb`. -/
inductive PySeq where
  | tup : List String → PySeq
  | lst : List String → PySeq
deriving DecidableEq, Repr

/-- The underlying elements of a Python sequence (iteration ignores the kind). -/
def PySeq.elems : PySeq → List String
  | PySeq.tup xs => xs
  | PySeq.lst xs => xs

/-- Python `==` on two sequence values: a tuple never equals a list,
even with identical elements; within a kind, elementwise equality. -/
def pySeqEq : PySeq → PySeq → Bool
  | PySeq.tup a, PySeq.tup b => a == b
  | PySeq.lst a, PySeq.lst b => a == b
  | _, _ => false

/-- `needle` matches at the head of `hay` (elementwise). -/
def matchesAt : List Char → List Char → Bool
  | [], _ => true
  | _ :: _, [] => false
  | a :: as, b :: bs => a == b && matchesAt as bs

/-- Fuel-driven scan for Python `str.count`: counts non-overlapping
occurrences left to right, skipping past each match. -/
def pyCountAux (needle : List Char) : Nat → List Char → Nat
  | 0, _ => 0
  | _ + 1, [] => 0
  | fuel + 1, c :: rest =>
    if matchesAt needle (c :: rest) then
      1 + pyCountAux needle fuel ((c :: rest).drop needle.length)
    else
      pyCountAux needle fuel rest

/-- Python `hay.count(needle)` for strings: non-overlapping substring
occurrences; an empty needle counts `len(hay) + 1` times. -/
def pyCount (hay needle : String) : Nat :=
  if needle.data.isEmpty then hay.data.length + 1
  else pyCountAux needle.data hay.data.length hay.data

/-- Scan for Python's substring containment test. -/
def pyInAux (needle : List Char) : List Char → Bool
  | [] => needle.isEmpty
  | c :: rest => matchesAt needle (c :: rest) || pyInAux needle rest

/-- Python `needle in hay` for strings: substring containment. -/
def pyInStr (needle hay : String) : Bool :=
  pyInAux needle.data hay.data

/-- Modelled from the spec: `nCr` is imported from `pycamv/utils.py`,
which is not among the provided source files.  The spec defines it as the
binomial coefficient with `C(n, k) = 0` if `k > n` or `n < 0`, and
`C(n, k) = 1` if `k = 0`. -/
def nCr (n : Int) (k : Nat) : Nat :=
  if n < 0 ∨ (k : Int) > n then 0 else Nat.choose n.toNat k

/-- The reassignment at the top of the `_calc_num_comb` loop
(`search.py` lines 99-100): `if mod == "Phospho" and letters == ["S", "T"]:
letters = ["S", "T", "Y"]`.  The right-hand sides are Python list literals. -/
def effLetters (ab : String) (letters : PySeq) : PySeq :=
  if (ab == "Phospho") && pySeqEq letters (PySeq.lst ["S", "T"]) then
    PySeq.lst ["S", "T", "Y"]
  else letters

/-- `potential_mod_sites` before subtraction (`search.py` line 102):
`sum(self.pep_seq.count(i) for i in letters)`. -/
def sitePool (pepSeq : String) (letters : PySeq) : Nat :=
  (letters.elems.map (fun i => pyCount pepSeq i)).sum

/-- `potential_mod_sites` after the subtraction loop (`search.py`
lines 104-108): for every entry of `pep_var_mods` with equal letters and a
different abbreviation, subtract its count. -/
def availSites (pepSeq : String) (pepVarMods : List (Nat × String × PySeq))
    (ab : String) (letters0 : PySeq) : Int :=
  let letters := effLetters ab letters0
  pepVarMods.foldl
    (fun pot o => if pySeqEq o.2.2 letters && (o.2.1 != ab) then pot - (o.1 : Int) else pot)
    ((sitePool pepSeq letters : Nat) : Int)

/-- `PeptideQuery._calc_num_comb` (`search.py` lines 95-112): the running
product `num_comb` of `nCr(potential_mod_sites, count)` over the variable
modification list. -/
def calcNumComb (pepSeq : String) (pepVarMods : List (Nat × String × PySeq)) : Nat :=
  pepVarMods.foldl
    (fun numComb m => numComb * nCr (availSites pepSeq pepVarMods m.2.1 m.2.2) m.1)
    1

/-- Errors raised by the pipeline.  The source raises plain Python
exceptions; the spec names the two failure modes `ConfigParseError`
(a modification declaration does not match `RE_DYN_MODS`; in the source an
`AttributeError` from `None.group`) and `UnknownModificationError`
(`discoverer.py` lines 116-118 and 152-154: `"Unexpected modification:
{letter} {abbrev}"`). -/
inductive PipeErr where
  | configParse (entry : String)
  | unknownMod (letter abb : String)
deriving DecidableEq, Repr

/-- `_find_mod` (`discoverer.py` lines 64-69): first pool entry whose name
equals the hit's abbreviation and whose raw site-list string contains the
determined residue/terminus as a substring (Python `letter in pot_mod[1]`).
Pool entries are the raw `(name, site-list)` string pairs extracted by
`RE_DYN_MODS.match(entry).group(3, 4)`. -/
def findMod (abb letter : String) (potMods : List (String × String)) :
    Option (String × String) :=
  potMods.find? (fun potMod => potMod.1 == abb && pyInStr letter potMod.2)

/-- One iteration of the classification loops in `_get_pep_mods`
(`discoverer.py` lines 102-118 and 138-154): search the variable pool, then
the fixed pool, else raise.  The `Bool` is `true` when the hit is classified
variable. -/
def resolveHit (abb letter : String) (varMods fixedMods : List (String × String)) :
    Except PipeErr (Bool × (String × String)) :=
  match findMod abb letter varMods with
  | some m => Except.ok (true, m)
  | none =>
    match findMod abb letter fixedMods with
    | some m => Except.ok (false, m)
    | none => Except.error (PipeErr.unknownMod letter abb)

/-- The classification loops of `_get_pep_mods`, over the observed hits in
order.  Each hit is a pair `(abbreviation, determined residue-or-terminus)`:
for an internal hit the letter is `pep_seq[pos]`, for a terminal hit it is
`"N-term"`/`"C-term"` (`discoverer.py` lines 102-103 and 138-139).
Returns the accumulated `(pep_var_mods, pep_fixed_mods)` lists. -/
def classifyHits (hits : List (String × String))
    (varMods fixedMods : List (String × String)) :
    Except PipeErr (List (String × String) × List (String × String)) :=
  match hits with
  | [] => Except.ok ([], [])
  | (abb, letter) :: rest =>
    match resolveHit abb letter varMods fixedMods with
    | Except.error e => Except.error e
    | Except.ok (isVar, m) =>
      match classifyHits rest varMods fixedMods with
      | Except.error e => Except.error e
      | Except.ok (v, f) =>
        Except.ok (if isVar then (m :: v, f) else (v, m :: f))

/-- `_parse_letters` (`discoverer.py` lines 21-38): `"N-term"`/`"C-term"`
stay whole; any other site-list string becomes the tuple of its characters. -/
def parseLetters (letters : String) : PySeq :=
  if letters = "N-term" ∨ letters = "C-term" then PySeq.tup [letters]
  else PySeq.tup (letters.data.map (fun c => String.mk [c]))

/-- Number of occurrences of `k` in `l` (Python `Counter`'s count). -/
def occCount (l : List (String × String)) (k : String × String) : Nat :=
  l.countP (fun y => decide (y = k))

/-- Distinct elements of a list in first-occurrence order, skipping those
already in `seen` (Python `Counter` iteration order). -/
def keysFirstAux (seen : List (String × String)) :
    List (String × String) → List (String × String)
  | [] => []
  | x :: xs =>
    if x ∈ seen then keysFirstAux seen xs
    else x :: keysFirstAux (x :: seen) xs

/-- Distinct elements of a list in first-occurrence order. -/
def keysFirst (l : List (String × String)) : List (String × String) :=
  keysFirstAux [] l

/-- `_count_mods` (`discoverer.py` lines 72-76): collapse the classified
`(abbrev, letters)` list into `(count, abbrev, parsed letters)` entries via
`Counter`. -/
def countMods (modList : List (String × String)) : List (Nat × String × PySeq) :=
  (keysFirst modList).map (fun k => (occCount modList k, k.1, parseLetters k.2))

/-- `_get_pep_mods` (`discoverer.py` lines 79-161) after the two database
reads: classify every observed hit, then aggregate each pool with
`_count_mods`. -/
def getPepMods (hits : List (String × String))
    (varMods fixedMods : List (String × String)) :
    Except PipeErr (List (Nat × String × PySeq) × List (Nat × String × PySeq)) :=
  match classifyHits hits varMods fixedMods with
  | Except.error e => Except.error e
  | Except.ok (v, f) => Except.ok (countMods v, countMods f)

/- ### The modification-declaration pattern `RE_DYN_MODS` -/

/-- Length of the leading run of decimal digits (the greedy `\d+`). -/
def digitRunLen : List Char → Nat
  | [] => 0
  | c :: rest => if c.isDigit then digitRunLen rest + 1 else 0

/-- Largest index `j ≥ lo` with `cs[j] = ')'` (the greedy second `(.+)`
followed by the final `\)`, unanchored at the end as `re.match` only
requires a prefix match). -/
def lastCloseIdx (cs : List Char) (lo : Nat) : Option Nat :=
  ((List.range cs.length).filter
    (fun j => decide (lo ≤ j) && (cs[j]? == some ')'))).getLast?

/-- Leftmost-greedy match of `(.+) \((.+)\)` against a prefix of `cs`,
returning groups 3 and 4 of `RE_DYN_MODS`: the first `(.+)` takes the
largest split position whose continuation still matches. -/
def mainMatch (cs : List Char) : Option (List Char × List Char) :=
  ((List.range cs.length).reverse.filterMap (fun i =>
    if 1 ≤ i ∧ cs[i]? = some ' ' ∧ cs[i + 1]? = some '(' then
      match lastCloseIdx cs (i + 3) with
      | some j => some (cs.take i, (cs.drop (i + 2)).take (j - (i + 2)))
      | none => none
    else none)).head?

/-- `RE_DYN_MODS.match(s).group(3, 4)` for the pattern
`((\d+) )?(.+) \((.+)\)` (`search.py` line 22): Python tries the optional
count group first and falls back to leaving it empty.  Returns `none` when
`re.match` returns `None` (declaration strings are single-line, so `.`
matching any non-newline character is not modelled separately). -/
def parseDynMod (s : String) : Option (String × String) :=
  let cs := s.data
  let d := digitRunLen cs
  let withCount : Option (List Char × List Char) :=
    if 1 ≤ d ∧ cs[d]? = some ' ' then mainMatch (cs.drop (d + 1)) else none
  match withCount with
  | some (g3, g4) => some (String.mk g3, String.mk g4)
  | none =>
    match mainMatch cs with
    | some (g3, g4) => some (String.mk g3, String.mk g4)
    | none => none

/-- The pool-extraction comprehensions of `_get_peptide_queries`
(`discoverer.py` lines 168-175): `RE_DYN_MODS.match(i).group(3, 4)` for each
declaration entry; a non-matching entry raises (`None` has no `group`),
aborting the run. -/
def parseModList : List String → Except PipeErr (List (String × String))
  | [] => Except.ok []
  | e :: rest =>
    match parseDynMod e with
    | none => Except.error (PipeErr.configParse e)
    | some r =>
      match parseModList rest with
      | Except.error err => Except.error err
      | Except.ok l => Except.ok (r :: l)

/- ### The `PeptideQuery` entity (`search.py` lines 25-112) -/

/-- `PeptideQuery` (`search.py`).  `query` holds whatever value the caller
passes (in `_get_peptide_queries` the same cursor object is stored in every
record); it is modelled as a `Nat` identifier.  Floats (`pep_exp_mz`) carry
no arithmetic here and are modelled as `Int`. -/
structure PeptideQuery where
  gi : String
  protein : String
  query : Nat
  filename : String
  pepExpMz : Int
  pepExpZ : Int
  pepSeq : String
  pepVarMods : List (Nat × String × PySeq)
  pepFixedMods : List (Nat × String × PySeq)
  scan : Nat
  numComb : Nat
deriving DecidableEq, Repr

/-- `PeptideQuery.__init__`: stores the fields and computes `num_comb`
with `_calc_num_comb` (the `_check_mods` assertions hold by typing). -/
def mkPeptideQuery (gi protein : String) (query : Nat) (filename : String)
    (pepExpMz pepExpZ : Int) (pepSeq : String)
    (pepVarMods pepFixedMods : List (Nat × String × PySeq)) (scan : Nat) :
    PeptideQuery :=
  { gi := gi, protein := protein, query := query, filename := filename,
    pepExpMz := pepExpMz, pepExpZ := pepExpZ, pepSeq := pepSeq,
    pepVarMods := pepVarMods, pepFixedMods := pepFixedMods, scan := scan,
    numComb := calcNumComb pepSeq pepVarMods }

/-- `PeptideQuery._unique_tuple` (`search.py` lines 67-73). -/
def PeptideQuery.uniqueTuple (q : PeptideQuery) : String × Nat × String × Nat :=
  (q.gi, q.query, q.pepSeq, q.scan)

/-- `PeptideQuery.__eq__` (`search.py` lines 78-81) between two
`PeptideQuery` values: equality of the unique tuples.  (For a non-
`PeptideQuery` operand the source raises `TypeError`; the typed embedding
has no such operand.) -/
def pepQueryEq (a b : PeptideQuery) : Bool :=
  decide (a.uniqueTuple = b.uniqueTuple)

/-- `PeptideQuery.__hash__` (`search.py` lines 75-76): the Python hash of
the unique tuple, for an arbitrary hash function on tuples. -/
def pepQueryHash (h : String × Nat × String × Nat → Nat) (q : PeptideQuery) : Nat :=
  h q.uniqueTuple

/- ### `_get_peptide_queries` (`discoverer.py` lines 164-234) -/

/-- One row of the peptide join in `_get_peptide_queries`, together with
the rows the per-peptide modification queries of `_get_pep_mods` return
for its `PeptideID`.  `hits` lists every observed modification event as
`(abbreviation, determined residue-or-terminus)`, internal hits first, in
database order; `accession`/`protDesc` are the two groups `RE_DESCRIPTION`
extracts from the protein description (that extraction is not claimed and
not modelled). -/
structure RawRow where
  accession : String
  protDesc : String
  pepSeq : String
  scan : Nat
  expMz : Int
  expZ : Int
  filename : String
  hits : List (String × String)
deriving DecidableEq, Repr

/-- One loop iteration of `_get_peptide_queries` (`discoverer.py`
lines 204-229): resolve the row's modifications and build the
`PeptideQuery`. -/
def buildQuery (queryId : Nat) (varMods fixedMods : List (String × String))
    (r : RawRow) : Except PipeErr PeptideQuery :=
  match getPepMods r.hits varMods fixedMods with
  | Except.error e => Except.error e
  | Except.ok (pv, pf) =>
    Except.ok (mkPeptideQuery r.accession r.protDesc queryId r.filename
      r.expMz r.expZ r.pepSeq pv pf r.scan)

/-- The whole row loop of `_get_peptide_queries`: every row is appended to
`out`; a failing row aborts the run. -/
def buildQueries (queryId : Nat) (varMods fixedMods : List (String × String)) :
    List RawRow → Except PipeErr (List PeptideQuery)
  | [] => Except.ok []
  | r :: rest =>
    match buildQuery queryId varMods fixedMods r with
    | Except.error e => Except.error e
    | Except.ok q =>
      match buildQueries queryId varMods fixedMods rest with
      | Except.error e => Except.error e
      | Except.ok qs => Except.ok (q :: qs)

/-- Insert `x` after every element `y` with `le y x` (stable insertion). -/
def insertSorted {α : Type} (le : α → α → Bool) (x : α) : List α → List α
  | [] => [x]
  | y :: ys => if le y x then y :: insertSorted le x ys else x :: y :: ys

/-- Python `sorted(l, key=...)`: a stable sort.  `sorted` is extensionally
determined by stability plus sortedness, so any stable sort models it;
this one inserts each element, left to right, after its equals. -/
def pySorted {α : Type} (le : α → α → Bool) (l : List α) : List α :=
  l.foldl (fun acc x => insertSorted le x acc) []

/-- `_get_peptide_queries` (`discoverer.py` lines 164-234): extract the
fixed then the variable pool from the raw declaration entries, build one
`PeptideQuery` per row, and return them sorted by scan
(`sorted(out, key=lambda x: x.scan)`). -/
def getPeptideQueries (queryId : Nat) (fixedEntries varEntries : List String)
    (rows : List RawRow) : Except PipeErr (List PeptideQuery) :=
  match parseModList fixedEntries with
  | Except.error e => Except.error e
  | Except.ok fixedMods =>
    match parseModList varEntries with
    | Except.error e => Except.error e
    | Except.ok varMods =>
      match buildQueries queryId varMods fixedMods rows with
      | Except.error e => Except.error e
      | Except.ok out =>
        Except.ok (pySorted (fun a b => decide (a.scan ≤ b.scan)) out)

/-- A concrete database row used in concrete instantiations. -/
def sampleRow : RawRow :=
  { accession := "P1", protDesc := "desc", pepSeq := "SAM", scan := 7,
    expMz := 100, expZ := 2, filename := "f.raw", hits := [] }

/- ### Helper lemmas -/

theorem foldl_mul_eq_prod {α : Type} (f : α → Nat) :
    ∀ (l : List α) (a : Nat),
      l.foldl (fun acc m => acc * f m) a = a * (l.map f).prod := by
  intro l
  induction l with
  | nil => intro a; simp
  | cons x xs ih => intro a; simp [List.foldl, ih, mul_assoc]

/-- `_calc_num_comb` is the product of the per-modification binomial
factors. -/
theorem calcNumComb_eq_prod (pepSeq : String)
    (mods : List (Nat × String × PySeq)) :
    calcNumComb pepSeq mods =
      (mods.map (fun m => nCr (availSites pepSeq mods m.2.1 m.2.2) m.1)).prod := by
  unfold calcNumComb
  rw [foldl_mul_eq_prod (fun m => nCr (availSites pepSeq mods m.2.1 m.2.2) m.1)
    mods 1, one_mul]

theorem nCr_eq_zero {n : Int} {k : Nat} (h : n < (k : Int)) : nCr n k = 0 := by
  unfold nCr
  rw [if_pos (Or.inr h)]

theorem foldl_sub_filter {α : Type} (p : α → Bool) (g : α → Int) :
    ∀ (l : List α) (init : Int),
      l.foldl (fun pot o => if p o then pot - g o else pot) init =
        init - ((l.filter p).map g).sum := by
  intro l
  induction l with
  | nil => intro init; simp
  | cons x xs ih =>
    intro init
    simp only [List.foldl, List.filter_cons]
    by_cases h : p x = true
    · rw [if_pos h, if_pos h, ih]
      simp only [List.map_cons, List.sum_cons]
      ring
    · rw [if_neg h, if_neg h]
      exact ih init

/-- The subtraction loop of `_calc_num_comb` in closed form: the available
sites for a modification are the site pool of its effective letters minus
the summed counts of *every* entry of the variable list whose letters
equal the effective letters (Python `==`, order-sensitive, tuple kind
included) and whose abbreviation differs. -/
theorem availSites_eq_sub (pepSeq : String)
    (mods : List (Nat × String × PySeq)) (ab : String) (letters0 : PySeq) :
    availSites pepSeq mods ab letters0 =
      (sitePool pepSeq (effLetters ab letters0) : Int) -
        ((mods.filter (fun o =>
          pySeqEq o.2.2 (effLetters ab letters0) && (o.2.1 != ab))).map
          (fun o => (o.1 : Int))).sum := by
  simp only [availSites]
  exact foldl_sub_filter
    (fun o : Nat × String × PySeq =>
      pySeqEq o.2.2 (effLetters ab letters0) && (o.2.1 != ab))
    (fun o => (o.1 : Int)) mods _

/-- The Phospho reassignment can never fire on a tuple: a Python tuple is
never `==` to a list literal. -/
theorem effLetters_tup (ab : String) (L : List String) :
    effLetters ab (PySeq.tup L) = PySeq.tup L := by
  simp [effLetters, pySeqEq]

theorem mem_keysFirstAux :
    ∀ (l seen : List (String × String)) (k : String × String),
      k ∈ keysFirstAux seen l → k ∈ l ∧ k ∉ seen := by
  intro l
  induction l with
  | nil => intro seen k h; simp [keysFirstAux] at h
  | cons x xs ih =>
    intro seen k h
    by_cases hx : x ∈ seen
    · rw [keysFirstAux, if_pos hx] at h
      rcases ih seen k h with ⟨h1, h2⟩
      exact ⟨List.mem_cons_of_mem _ h1, h2⟩
    · rw [keysFirstAux, if_neg hx] at h
      rcases List.mem_cons.mp h with rfl | h
      · exact ⟨List.mem_cons_self _ _, hx⟩
      · rcases ih (x :: seen) k h with ⟨h1, h2⟩
        exact ⟨List.mem_cons_of_mem _ h1,
          fun hk => h2 (List.mem_cons_of_mem _ hk)⟩

theorem occCount_cons (y : String × String) (ys : List (String × String))
    (k : String × String) :
    occCount (y :: ys) k = occCount ys k + if y = k then 1 else 0 := by
  simp [occCount, List.countP_cons]

/-- Splitting the not-yet-seen elements of `xs` into the occurrences of a
fresh key `x` and the elements that are new relative to `x :: seen`. -/
theorem occCount_filter_split (x : String × String)
    (seen : List (String × String)) (hx : x ∉ seen) :
    ∀ xs : List (String × String),
      occCount xs x +
        (xs.filter (fun y => decide (y ∉ (x :: seen)))).length =
      (xs.filter (fun y => decide (y ∉ seen))).length := by
  intro xs
  induction xs with
  | nil => simp [occCount]
  | cons y ys ih =>
    rw [occCount_cons]
    simp only [List.filter_cons, decide_eq_true_eq]
    by_cases hyx : y = x
    · subst hyx
      rw [if_pos rfl, if_neg (by simp), if_pos hx]
      simp only [List.length_cons]
      omega
    · rw [if_neg hyx]
      by_cases hys : y ∈ seen
      · rw [if_neg (by simp [List.mem_cons, hys]), if_neg (not_not_intro hys)]
        omega
      · rw [if_pos (by simp [List.mem_cons, hyx, hys]), if_pos hys]
        simp only [List.length_cons]
        omega

/-- Sum of the per-key occurrence counts over the fresh keys of `l` equals
the number of elements of `l` outside `seen`. -/
theorem sum_occCount_keysFirstAux :
    ∀ (l seen : List (String × String)),
      (((keysFirstAux seen l).map (fun k => occCount l k)).sum) =
        (l.filter (fun y => decide (y ∉ seen))).length := by
  intro l
  induction l with
  | nil => intro seen; simp [keysFirstAux]
  | cons x xs ih =>
    intro seen
    by_cases hx : x ∈ seen
    · rw [keysFirstAux, if_pos hx]
      have hmap :
          (keysFirstAux seen xs).map (fun k => occCount (x :: xs) k) =
          (keysFirstAux seen xs).map (fun k => occCount xs k) := by
        apply List.map_congr_left
        intro k hk
        rcases mem_keysFirstAux xs seen k hk with ⟨_, hks⟩
        have hkx : x ≠ k := fun h => hks (h ▸ hx)
        rw [occCount_cons, if_neg hkx, add_zero]
      rw [hmap, ih seen]
      simp only [List.filter_cons, decide_eq_true_eq]
      rw [if_neg (not_not_intro hx)]
    · rw [keysFirstAux, if_neg hx]
      simp only [List.map_cons, List.sum_cons]
      have hmap :
          (keysFirstAux (x :: seen) xs).map (fun k => occCount (x :: xs) k) =
          (keysFirstAux (x :: seen) xs).map (fun k => occCount xs k) := by
        apply List.map_congr_left
        intro k hk
        rcases mem_keysFirstAux xs (x :: seen) k hk with ⟨_, hks⟩
        have hkx : x ≠ k := fun h => hks (h ▸ List.mem_cons_self x seen)
        rw [occCount_cons, if_neg hkx, add_zero]
      rw [hmap, ih (x :: seen), occCount_cons, if_pos rfl]
      simp only [List.filter_cons, decide_eq_true_eq]
      rw [if_pos hx]
      simp only [List.length_cons]
      have := occCount_filter_split x seen hx xs
      omega

/-- The aggregated counts of `_count_mods` sum to the length of its input:
no hit is lost or duplicated. -/
theorem countMods_sum (l : List (String × String)) :
    ((countMods l).map (fun e => e.1)).sum = l.length := by
  unfold countMods keysFirst
  rw [List.map_map]
  have : ((fun e : Nat × String × PySeq => e.1) ∘
      (fun k : String × String => (occCount l k, k.1, parseLetters k.2))) =
      fun k => occCount l k := rfl
  rw [this, sum_occCount_keysFirstAux l []]
  simp

/-- Every aggregated count of `_count_mods` is at least 1. -/
theorem countMods_pos (l : List (String × String)) :
    ∀ e ∈ countMods l, 1 ≤ e.1 := by
  intro e he
  unfold countMods keysFirst at he
  rcases List.mem_map.mp he with ⟨k, hk, rfl⟩
  rcases mem_keysFirstAux l [] k hk with ⟨hkl, -⟩
  have : 0 < occCount l k := by
    apply List.countP_pos_iff.mpr
    exact ⟨k, hkl, by simp⟩
  simpa using this

/-- `resolveHit` succeeds exactly when one of the two pools matches. -/
theorem resolveHit_isOk (abb letter : String)
    (varMods fixedMods : List (String × String)) :
    (resolveHit abb letter varMods fixedMods).isOk = true ↔
      (findMod abb letter varMods).isSome = true ∨
      (findMod abb letter fixedMods).isSome = true := by
  unfold resolveHit
  cases hv : findMod abb letter varMods with
  | some m => simp [Except.isOk, Except.toBool]
  | none =>
    cases hf : findMod abb letter fixedMods with
    | some m => simp [Except.isOk, Except.toBool]
    | none => simp [Except.isOk, Except.toBool]

/-- The only error `resolveHit` produces is `unknownMod` for a hit matched
by neither pool, and it carries that hit's residue letter and abbreviation. -/
theorem resolveHit_error (abb letter : String)
    (varMods fixedMods : List (String × String)) (e : PipeErr) :
    resolveHit abb letter varMods fixedMods = Except.error e ↔
      findMod abb letter varMods = none ∧
      findMod abb letter fixedMods = none ∧
      e = PipeErr.unknownMod letter abb := by
  unfold resolveHit
  cases hv : findMod abb letter varMods with
  | some m => simp
  | none =>
    cases hf : findMod abb letter fixedMods with
    | some m => simp
    | none =>
      constructor
      · intro h
        exact ⟨rfl, rfl, (Except.error.injEq _ _).mp h.symm⟩
      · intro ⟨_, _, h⟩
        rw [h]

/-- Every successfully classified hit list splits its length between the
two output lists. -/
theorem classifyHits_length :
    ∀ (hits : List (String × String))
      (varMods fixedMods v f : List (String × String)),
      classifyHits hits varMods fixedMods = Except.ok (v, f) →
      v.length + f.length = hits.length := by
  intro hits
  induction hits with
  | nil =>
    intro varMods fixedMods v f h
    simp only [classifyHits, Except.ok.injEq] at h
    obtain ⟨rfl, rfl⟩ := Prod.mk.injEq _ _ _ _ ▸ h
    simp
  | cons hit rest ih =>
    intro varMods fixedMods v f h
    obtain ⟨abb, letter⟩ := hit
    simp only [classifyHits] at h
    cases hr : resolveHit abb letter varMods fixedMods with
    | error e => rw [hr] at h; exact absurd h (by simp)
    | ok p =>
      obtain ⟨isVar, m⟩ := p
      rw [hr] at h
      cases hc : classifyHits rest varMods fixedMods with
      | error e => rw [hc] at h; exact absurd h (by simp)
      | ok vf =>
        obtain ⟨v', f'⟩ := vf
        rw [hc] at h
        have hlen := ih varMods fixedMods v' f' hc
        cases isVar with
        | true =>
          simp only [if_pos rfl, Except.ok.injEq, Prod.mk.injEq] at h
          obtain ⟨rfl, rfl⟩ := h
          simp only [List.length_cons, List.length]
          omega
        | false =>
          simp only [Bool.false_eq_true, if_neg, Except.ok.injEq,
            Prod.mk.injEq] at h
          obtain ⟨rfl, rfl⟩ := h
          simp only [List.length_cons, List.length]
          omega

/-- `classifyHits` succeeds exactly when every hit matches one of the two
pools. -/
theorem classifyHits_isOk :
    ∀ (hits varMods fixedMods : List (String × String)),
      (classifyHits hits varMods fixedMods).isOk = true ↔
        ∀ p ∈ hits, (findMod p.1 p.2 varMods).isSome = true ∨
          (findMod p.1 p.2 fixedMods).isSome = true := by
  intro hits
  induction hits with
  | nil => intro varMods fixedMods; simp [classifyHits, Except.isOk, Except.toBool]
  | cons hit rest ih =>
    intro varMods fixedMods
    obtain ⟨abb, letter⟩ := hit
    simp only [classifyHits]
    cases hr : resolveHit abb letter varMods fixedMods with
    | error e =>
      have hno : ¬ ((findMod abb letter varMods).isSome = true ∨
          (findMod abb letter fixedMods).isSome = true) := by
        rw [← resolveHit_isOk, hr]
        simp [Except.isOk, Except.toBool]
      simp only [Except.isOk, Except.toBool]
      constructor
      · intro h; exact (Bool.false_ne_true h).elim
      · intro h
        exact absurd (h (abb, letter) (List.mem_cons_self _ _)) hno
    | ok p =>
      obtain ⟨isVar, m⟩ := p
      have hyes : (findMod abb letter varMods).isSome = true ∨
          (findMod abb letter fixedMods).isSome = true := by
        rw [← resolveHit_isOk, hr]; rfl
      cases hc : classifyHits rest varMods fixedMods with
      | error e =>
        have := (ih varMods fixedMods).symm
        rw [hc] at this
        simp only [Except.isOk, Except.toBool] at this ⊢
        constructor
        · intro h; exact (Bool.false_ne_true h).elim
        · intro h
          have hall : ∀ p ∈ rest, (findMod p.1 p.2 varMods).isSome = true ∨
              (findMod p.1 p.2 fixedMods).isSome = true := by
            intro p hp; exact h p (List.mem_cons_of_mem _ hp)
          exact (Bool.false_ne_true (this.mp hall)).elim
      | ok vf =>
        obtain ⟨v, f⟩ := vf
        have hrest := ih varMods fixedMods
        rw [hc] at hrest
        simp only [Except.isOk, Except.toBool] at hrest
        constructor
        · intro _ p hp
          rcases List.mem_cons.mp hp with rfl | hp'
          · exact hyes
          · exact (hrest.mp trivial) p hp'
        · intro _
          rfl

/-- An `unknownMod` error out of `classifyHits` names a hit present in the
input that matches neither pool. -/
theorem classifyHits_error :
    ∀ (hits varMods fixedMods : List (String × String)) (letter abb : String),
      classifyHits hits varMods fixedMods =
        Except.error (PipeErr.unknownMod letter abb) →
      (abb, letter) ∈ hits ∧ findMod abb letter varMods = none ∧
        findMod abb letter fixedMods = none := by
  intro hits
  induction hits with
  | nil =>
    intro varMods fixedMods letter abb h
    simp [classifyHits] at h
  | cons hit rest ih =>
    intro varMods fixedMods letter abb h
    obtain ⟨abb0, letter0⟩ := hit
    simp only [classifyHits] at h
    cases hr : resolveHit abb0 letter0 varMods fixedMods with
    | error e =>
      rw [hr] at h
      have he : e = PipeErr.unknownMod letter abb := by
        have := (Except.error.injEq _ _).mp h
        exact this.symm ▸ rfl
      rcases (resolveHit_error abb0 letter0 varMods fixedMods e).mp hr
        with ⟨hv, hf, he'⟩
      rw [he] at he'
      have hletter : letter0 = letter := by
        injection he'.symm
      have habb : abb0 = abb := by
        injection he'.symm with h1 h2
      subst hletter; subst habb
      exact ⟨List.mem_cons_self _ _, hv, hf⟩
    | ok p =>
      obtain ⟨isVar, m⟩ := p
      rw [hr] at h
      cases hc : classifyHits rest varMods fixedMods with
      | error e =>
        rw [hc] at h
        have he : e = PipeErr.unknownMod letter abb := by
          have := (Except.error.injEq _ _).mp h
          exact this.symm ▸ rfl
        rw [he] at hc
        rcases ih varMods fixedMods letter abb hc with ⟨hm, hv, hf⟩
        exact ⟨List.mem_cons_of_mem _ hm, hv, hf⟩
      | ok vf =>
        obtain ⟨v, f⟩ := vf
        rw [hc] at h
        cases isVar <;> simp at h

theorem mem_insertSorted {α : Type} (le : α → α → Bool) (x : α) :
    ∀ (l : List α) (a : α), a ∈ insertSorted le x l ↔ a = x ∨ a ∈ l := by
  intro l
  induction l with
  | nil => intro a; simp [insertSorted]
  | cons y ys ih =>
    intro a
    unfold insertSorted
    by_cases h : le y x = true
    · rw [if_pos h]
      simp only [List.mem_cons, ih]
      tauto
    · rw [if_neg h]
      simp only [List.mem_cons]

theorem length_insertSorted {α : Type} (le : α → α → Bool) (x : α) :
    ∀ l : List α, (insertSorted le x l).length = l.length + 1 := by
  intro l
  induction l with
  | nil => rfl
  | cons y ys ih =>
    unfold insertSorted
    by_cases h : le y x = true
    · rw [if_pos h]
      simp [ih]
    · rw [if_neg h]
      simp

theorem pairwise_insertSorted {α : Type} (le : α → α → Bool)
    (htrans : ∀ a b c, le a b = true → le b c = true → le a c = true)
    (htot : ∀ a b, le a b = false → le b a = true) (x : α) :
    ∀ l : List α, l.Pairwise (fun a b => le a b = true) →
      (insertSorted le x l).Pairwise (fun a b => le a b = true) := by
  intro l
  induction l with
  | nil => intro _; simp [insertSorted]
  | cons y ys ih =>
    intro hp
    rcases List.pairwise_cons.mp hp with ⟨hy, hys⟩
    unfold insertSorted
    by_cases h : le y x = true
    · rw [if_pos h]
      refine List.pairwise_cons.mpr ⟨?_, ih hys⟩
      intro b hb
      rcases (mem_insertSorted le x ys b).mp hb with rfl | hb'
      · exact h
      · exact hy b hb'
    · rw [if_neg h]
      refine List.pairwise_cons.mpr ⟨?_, hp⟩
      intro b hb
      rcases List.mem_cons.mp hb with heq | hb'
      · rw [heq]
        exact htot y x (Bool.not_eq_true _ ▸ h)
      · exact htrans x y b (htot y x (Bool.not_eq_true _ ▸ h)) (hy b hb')

theorem pairwise_pySorted {α : Type} (le : α → α → Bool)
    (htrans : ∀ a b c, le a b = true → le b c = true → le a c = true)
    (htot : ∀ a b, le a b = false → le b a = true) :
    ∀ (l acc : List α), acc.Pairwise (fun a b => le a b = true) →
      (l.foldl (fun acc x => insertSorted le x acc) acc).Pairwise
        (fun a b => le a b = true) := by
  intro l
  induction l with
  | nil => intro acc h; exact h
  | cons x xs ih =>
    intro acc h
    exact ih _ (pairwise_insertSorted le htrans htot x acc h)

theorem length_pySorted {α : Type} (le : α → α → Bool) :
    ∀ (l acc : List α),
      (l.foldl (fun acc x => insertSorted le x acc) acc).length =
        acc.length + l.length := by
  intro l
  induction l with
  | nil => intro acc; rfl
  | cons x xs ih =>
    intro acc
    simp only [List.foldl, ih, length_insertSorted, List.length_cons]
    omega

/-- `parseModList` succeeds exactly when every declaration entry matches
`RE_DYN_MODS`, and then keeps one pool entry per declaration. -/
theorem parseModList_ok :
    ∀ entries : List String,
      ((parseModList entries).isOk = true ↔
        ∀ e ∈ entries, (parseDynMod e).isSome = true) ∧
      (∀ l, parseModList entries = Except.ok l → l.length = entries.length) := by
  intro entries
  induction entries with
  | nil =>
    refine ⟨?_, ?_⟩
    · simp [parseModList, Except.isOk, Except.toBool]
    · intro l h
      simp only [parseModList, Except.ok.injEq] at h
      rw [← h]
      rfl
  | cons e rest ih =>
    refine ⟨?_, ?_⟩
    · simp only [parseModList]
      cases hp : parseDynMod e with
      | none =>
        simp only [Except.isOk, Except.toBool]
        constructor
        · intro h; exact (Bool.false_ne_true h).elim
        · intro h
          have := h e (List.mem_cons_self _ _)
          rw [hp] at this
          exact absurd this (by simp)
      | some r =>
        cases hr : parseModList rest with
        | error err =>
          simp only [Except.isOk, Except.toBool]
          constructor
          · intro h; exact (Bool.false_ne_true h).elim
          · intro h
            have hall : ∀ x ∈ rest, (parseDynMod x).isSome = true := by
              intro x hx; exact h x (List.mem_cons_of_mem _ hx)
            have := (ih.1).mpr hall
            rw [hr] at this
            exact absurd this (by simp [Except.isOk, Except.toBool])
        | ok l =>
          simp only [Except.isOk, Except.toBool]
          constructor
          · intro _ x hx
            rcases List.mem_cons.mp hx with rfl | hx'
            · rw [hp]; rfl
            · have := (ih.1).mp (by rw [hr]; rfl)
              exact this x hx'
          · intro _; trivial
    · intro l h
      simp only [parseModList] at h
      cases hp : parseDynMod e with
      | none => rw [hp] at h; exact absurd h (by simp)
      | some r =>
        rw [hp] at h
        cases hr : parseModList rest with
        | error err => rw [hr] at h; exact absurd h (by simp)
        | ok l' =>
          rw [hr] at h
          have := ih.2 l' hr
          simp only [Except.ok.injEq] at h
          rw [← h]
          simp [this]

/-- Every successfully processed row list yields exactly one record per
row, in order. -/
theorem buildQueries_length :
    ∀ (rows : List RawRow) (queryId : Nat)
      (varMods fixedMods : List (String × String)) (out : List PeptideQuery),
      buildQueries queryId varMods fixedMods rows = Except.ok out →
      out.length = rows.length := by
  intro rows
  induction rows with
  | nil =>
    intro queryId varMods fixedMods out h
    simp only [buildQueries, Except.ok.injEq] at h
    rw [← h]
    rfl
  | cons r rest ih =>
    intro queryId varMods fixedMods out h
    simp only [buildQueries] at h
    cases hb : buildQuery queryId varMods fixedMods r with
    | error e => rw [hb] at h; exact absurd h (by simp)
    | ok q =>
      rw [hb] at h
      cases hr : buildQueries queryId varMods fixedMods rest with
      | error e => rw [hr] at h; exact absurd h (by simp)
      | ok qs =>
        rw [hr] at h
        simp only [Except.ok.injEq] at h
        rw [← h]
        simp [ih queryId varMods fixedMods qs hr]

/- ### Claim theorems -/

/-- C1: the claim says a variable Phospho modification declared on the
residue tuple ("S", "T") uses the expanded pool {S, T, Y}, so a sequence
with 2 S/T residues and 1 Y and count 1 should give C(3,1) = 3.  The code
disagrees: `letters == ["S", "T"]` compares the tuple produced by
`_count_mods` (and required by the `_check_mods` assertion) against a list
literal, which is always `False` in Python, so the expansion never fires
and the result is C(2,1) = 2.  The second conjunct shows the expansion
branch itself is correct when `letters` is a list, locating the slip in
the tuple-vs-list comparison. -/
theorem c1_phospho_expansion_dead_eval :
    calcNumComb "STY" [(1, "Phospho", PySeq.tup ["S", "T"])] = 2 ∧
    calcNumComb "STY" [(1, "Phospho", PySeq.lst ["S", "T"])] = 3 := by
  decide

/-- C2 (counterexample): the claim subtracts the count of every other
variable modification whose candidate-site *set* is identical.  The code
compares the residue tuples with `==`, which is order-sensitive: for two
modifications declared on ("S", "T") and ("T", "S") — identical sets —
no subtraction happens, and on the sequence "ST" the product is
C(2,1)·C(2,1) = 4, not the C(1,1)·C(1,1) = 1 the claim predicts. -/
theorem c2_set_equality_counterexample :
    calcNumComb "ST"
      [(1, "ModA", PySeq.tup ["S", "T"]), (1, "ModB", PySeq.tup ["T", "S"])] = 4 ∧
    calcNumComb "ST"
      [(1, "ModA", PySeq.tup ["S", "T"]), (1, "ModB", PySeq.tup ["T", "S"])] ≠ 1 := by
  decide

/-- C2 (amended): for every variable modification in an arbitrary variable
list, the Enumerator's factor is C(available, count) where available is the
site pool of the modification's effective letters minus the summed counts
of *every other* entry whose declared residue value is equal under
Python's order-sensitive `==` (for the tuples `_count_mods` produces,
`effLetters` is the identity — `effLetters_tup` — so this is equality of
ordered residue tuples) and whose abbreviation differs; the combinatorial
count is the product of these factors. -/
theorem c2_tuple_subtraction :
    ∀ (pepSeq : String) (mods : List (Nat × String × PySeq)),
      calcNumComb pepSeq mods =
        (mods.map (fun m =>
          nCr ((sitePool pepSeq (effLetters m.2.1 m.2.2) : Int) -
            ((mods.filter (fun o =>
              pySeqEq o.2.2 (effLetters m.2.1 m.2.2) && (o.2.1 != m.2.1))).map
              (fun o => (o.1 : Int))).sum) m.1)).prod := by
  intro pepSeq mods
  rw [calcNumComb_eq_prod]
  simp only [availSites_eq_sub]

/-- C2 (witness): the Oxidation/Dioxidation example of the amended claim —
sequence "MM", each available = 2 − 1 = 1, total C(1,1)·C(1,1) = 1 — and a
four-modification mixed list on "MMMST" where the plural subtraction
matters: Oxidation, Dioxidation and Trioxidation all on ("M",) each get
available = 3 − (1 + 1) = 1, Phospho on ("S", "T") shares no pool and gets
C(2,1) = 2, for a total of 2. -/
theorem c2_tuple_subtraction_witness :
    calcNumComb "MM"
      [(1, "Oxidation", PySeq.tup ["M"]), (1, "Dioxidation", PySeq.tup ["M"])] = 1 ∧
    calcNumComb "MMMST"
      [(1, "Oxidation", PySeq.tup ["M"]), (1, "Dioxidation", PySeq.tup ["M"]),
       (1, "Trioxidation", PySeq.tup ["M"]),
       (1, "Phospho", PySeq.tup ["S", "T"])] = 2 := by
  constructor
  · exact (c2_tuple_subtraction "MM"
      [(1, "Oxidation", PySeq.tup ["M"]),
       (1, "Dioxidation", PySeq.tup ["M"])]).trans (by decide)
  · exact (c2_tuple_subtraction "MMMST"
      [(1, "Oxidation", PySeq.tup ["M"]), (1, "Dioxidation", PySeq.tup ["M"]),
       (1, "Trioxidation", PySeq.tup ["M"]),
       (1, "Phospho", PySeq.tup ["S", "T"])]).trans (by decide)

/-- C3: the per-modification factor C(available, count) is 0 whenever
count > available, making the whole product 0, which is returned unchanged
as `num_comb`; and an empty variable-modification list yields 1. -/
theorem c3_zero_factor_and_empty :
    (∀ pepSeq : String, calcNumComb pepSeq [] = 1) ∧
    (∀ (pepSeq : String) (mods : List (Nat × String × PySeq)),
      (∃ m ∈ mods, availSites pepSeq mods m.2.1 m.2.2 < (m.1 : Int)) →
      calcNumComb pepSeq mods = 0) := by
  constructor
  · intro pepSeq; rfl
  · intro pepSeq mods hex
    obtain ⟨m, hm, hlt⟩ := hex
    rw [calcNumComb_eq_prod]
    apply List.prod_eq_zero
    exact List.mem_map.mpr ⟨m, hm, nCr_eq_zero hlt⟩

/-- C3 (witness): one Oxidation with declared count 2 on a sequence with a
single Methionine gives 0; an empty list gives 1. -/
theorem c3_zero_factor_and_empty_witness :
    calcNumComb "M" [(2, "Oxidation", PySeq.tup ["M"])] = 0 ∧
    calcNumComb "QQQ" [] = 1 := by
  constructor
  · exact c3_zero_factor_and_empty.2 "M" [(2, "Oxidation", PySeq.tup ["M"])]
      ⟨(2, "Oxidation", PySeq.tup ["M"]), by decide, by decide⟩
  · exact c3_zero_factor_and_empty.1 "QQQ"

/-- C4: the variable pool is searched before the fixed pool, so a hit
whose (abbreviation, residue) matches a variable-pool spec is classified
variable regardless of what the fixed pool declares — in particular when
the combination is declared in both pools. -/
theorem c4_variable_pool_precedence (abb letter : String)
    (varMods fixedMods : List (String × String)) (m : String × String)
    (h : findMod abb letter varMods = some m) :
    resolveHit abb letter varMods fixedMods = Except.ok (true, m) := by
  unfold resolveHit
  rw [h]

/-- C4 (witness): "Phospho" on "S" declared in both pools is classified
variable. -/
theorem c4_variable_pool_precedence_witness :
    resolveHit "Phospho" "S" [("Phospho", "STY")] [("Phospho", "STY")] =
      Except.ok (true, ("Phospho", "STY")) :=
  c4_variable_pool_precedence "Phospho" "S" [("Phospho", "STY")]
    [("Phospho", "STY")] ("Phospho", "STY") (by decide)

/-- C5: the Resolver succeeds exactly when every observed hit matches a
spec in the variable or fixed pool, and an `unknownMod` error names a hit
of the input that matches neither pool, carrying its abbreviation and
residue.  (On error no classification is produced at all: the result type
carries either an error or the full output.) -/
theorem c5_unknown_modification_error :
    ∀ (hits varMods fixedMods : List (String × String)),
      ((classifyHits hits varMods fixedMods).isOk = true ↔
        ∀ p ∈ hits, (findMod p.1 p.2 varMods).isSome = true ∨
          (findMod p.1 p.2 fixedMods).isSome = true) ∧
      (∀ letter abb, classifyHits hits varMods fixedMods =
          Except.error (PipeErr.unknownMod letter abb) →
        (abb, letter) ∈ hits ∧ findMod abb letter varMods = none ∧
          findMod abb letter fixedMods = none) := by
  intro hits varMods fixedMods
  exact ⟨classifyHits_isOk hits varMods fixedMods,
    fun letter abb h => classifyHits_error hits varMods fixedMods letter abb h⟩

/-- C5 (witness): a hit with abbreviation "Gla" against empty pools
produces the unknown-modification error naming that hit. -/
theorem c5_unknown_modification_error_witness :
    ("Gla", "S") ∈ [("Gla", "S")] ∧
    findMod "Gla" "S" ([] : List (String × String)) = none ∧
    findMod "Gla" "S" ([] : List (String × String)) = none :=
  (c5_unknown_modification_error [("Gla", "S")] [] []).2 "S" "Gla" (by rfl)

/-- C6: the Dictionary Builder aborts (with the config-parse error) exactly
when some declaration entry fails to match `RE_DYN_MODS`, and on success
keeps one pool entry per declaration — no entry is silently dropped. -/
theorem c6_config_parse_abort :
    ∀ entries : List String,
      ((parseModList entries).isOk = true ↔
        ∀ e ∈ entries, (parseDynMod e).isSome = true) ∧
      (∀ l, parseModList entries = Except.ok l → l.length = entries.length) :=
  parseModList_ok

/-- C6 (witness): two well-formed declarations parse into two pool entries;
a declaration without a parenthesised site list aborts. -/
theorem c6_config_parse_abort_witness :
    (parseModList ["Oxidation (M)", "Phospho (STY)"]).isOk = true ∧
    ([("Oxidation", "M"), ("Phospho", "STY")] : List (String × String)).length =
      ["Oxidation (M)", "Phospho (STY)"].length ∧
    (parseModList ["BadEntry"]).isOk = false :=
  ⟨(c6_config_parse_abort ["Oxidation (M)", "Phospho (STY)"]).1.mpr (by decide),
   (c6_config_parse_abort ["Oxidation (M)", "Phospho (STY)"]).2
     [("Oxidation", "M"), ("Phospho", "STY")] (by rfl),
   by decide⟩

/-- C7: for every peptide that resolves successfully, the counts over the
variable and fixed outputs together sum to the number of observed hits,
and every aggregated count is at least 1 (so no count-0 entry exists). -/
theorem c7_count_conservation :
    ∀ (hits varMods fixedMods : List (String × String))
      (pv pf : List (Nat × String × PySeq)),
      getPepMods hits varMods fixedMods = Except.ok (pv, pf) →
      ((pv.map (fun e => e.1)).sum + (pf.map (fun e => e.1)).sum = hits.length) ∧
      (∀ e ∈ pv, 1 ≤ e.1) ∧ (∀ e ∈ pf, 1 ≤ e.1) := by
  intro hits varMods fixedMods pv pf h
  unfold getPepMods at h
  cases hc : classifyHits hits varMods fixedMods with
  | error e => rw [hc] at h; exact absurd h (by simp)
  | ok vf =>
    obtain ⟨v, f⟩ := vf
    rw [hc] at h
    simp only [Except.ok.injEq, Prod.mk.injEq] at h
    obtain ⟨rfl, rfl⟩ := h
    refine ⟨?_, countMods_pos v, countMods_pos f⟩
    rw [countMods_sum, countMods_sum]
    exact classifyHits_length hits varMods fixedMods v f hc

/-- C7 (witness): three observed hits — two variable Phospho, one fixed
Oxidation — aggregate to counts 2 and 1, which sum to 3. -/
theorem c7_count_conservation_witness :
    ([(2, "Phospho", PySeq.tup ["S", "T"])].map
        (fun e : Nat × String × PySeq => e.1)).sum +
      ([(1, "Oxidation", PySeq.tup ["M"])].map
        (fun e : Nat × String × PySeq => e.1)).sum =
      [("Phospho", "S"), ("Phospho", "T"), ("Oxidation", "M")].length :=
  (c7_count_conservation
    [("Phospho", "S"), ("Phospho", "T"), ("Oxidation", "M")]
    [("Phospho", "ST")] [("Oxidation", "M")]
    [(2, "Phospho", PySeq.tup ["S", "T"])]
    [(1, "Oxidation", PySeq.tup ["M"])] (by rfl)).1

/-- C8 (counterexample): the claim says the delivered collection is
deduplicated by the identity tuple.  Feeding the same database row twice
delivers two records with the same identity tuple: `_get_peptide_queries`
appends one record per row and only sorts — it never deduplicates (the
`scan_used` machinery in the source is commented out). -/
theorem c8_no_dedup_counterexample :
    (getPeptideQueries 0 [] [] [sampleRow, sampleRow]).map
      (fun l => (l.length, l.map PeptideQuery.uniqueTuple)) =
    Except.ok (2, [("P1", 0, "SAM", 7), ("P1", 0, "SAM", 7)]) := by
  rfl

/-- C8 (amended): the delivered collection is ordered by scan number
ascending and contains exactly one record per input row — duplicates by
identity tuple are retained, not removed. -/
theorem c8_sorted_no_dedup :
    ∀ (queryId : Nat) (fixedEntries varEntries : List String)
      (rows : List RawRow) (out : List PeptideQuery),
      getPeptideQueries queryId fixedEntries varEntries rows = Except.ok out →
      out.length = rows.length ∧
      out.Pairwise (fun a b => a.scan ≤ b.scan) := by
  intro qid fE vE rows out h
  unfold getPeptideQueries at h
  cases h1 : parseModList fE with
  | error e => rw [h1] at h; exact absurd h (by simp)
  | ok fixedMods =>
    rw [h1] at h
    dsimp only at h
    cases h2 : parseModList vE with
    | error e => rw [h2] at h; exact absurd h (by simp)
    | ok varMods =>
      rw [h2] at h
      dsimp only at h
      cases h3 : buildQueries qid varMods fixedMods rows with
      | error e => rw [h3] at h; exact absurd h (by simp)
      | ok l =>
        rw [h3] at h
        simp only [Except.ok.injEq] at h
        subst h
        have htrans : ∀ a b c : PeptideQuery,
            (decide (a.scan ≤ b.scan)) = true →
            (decide (b.scan ≤ c.scan)) = true →
            (decide (a.scan ≤ c.scan)) = true := by
          intro a b c h1' h2'
          exact decide_eq_true
            (le_trans (of_decide_eq_true h1') (of_decide_eq_true h2'))
        have htot : ∀ a b : PeptideQuery,
            (decide (a.scan ≤ b.scan)) = false →
            (decide (b.scan ≤ a.scan)) = true := by
          intro a b hf
          exact decide_eq_true (le_of_not_le (of_decide_eq_false hf))
        constructor
        · unfold pySorted
          rw [length_pySorted]
          simp [buildQueries_length rows qid varMods fixedMods l h3]
        · have hp := pairwise_pySorted
            (fun a b : PeptideQuery => decide (a.scan ≤ b.scan))
            htrans htot l [] List.Pairwise.nil
          exact hp.imp (fun hab => of_decide_eq_true hab)

/-- C8 (witness): two rows with scans 9 and 7 come back as two records in
ascending scan order. -/
theorem c8_sorted_no_dedup_witness :
    [mkPeptideQuery "P1" "desc" 0 "f.raw" 100 2 "SAM" [] [] 7,
     mkPeptideQuery "P1" "desc" 0 "f.raw" 100 2 "SAM" [] [] 9].length =
      [{ sampleRow with scan := 9 }, sampleRow].length ∧
    List.Pairwise (fun a b : PeptideQuery => a.scan ≤ b.scan)
      [mkPeptideQuery "P1" "desc" 0 "f.raw" 100 2 "SAM" [] [] 7,
       mkPeptideQuery "P1" "desc" 0 "f.raw" 100 2 "SAM" [] [] 9] :=
  c8_sorted_no_dedup 0 [] [] [{ sampleRow with scan := 9 }, sampleRow]
    [mkPeptideQuery "P1" "desc" 0 "f.raw" 100 2 "SAM" [] [] 7,
     mkPeptideQuery "P1" "desc" 0 "f.raw" 100 2 "SAM" [] [] 9] (by rfl)

/-- C9: two `PeptideQuery` records compare equal exactly when their
identity tuples (accession, query identifier, sequence, scan) agree, and
then their hashes (any function of the unique tuple, as `__hash__` hashes
`_unique_tuple()`) also agree — independently of every other field. -/
theorem c9_identity_tuple_equality :
    ∀ (h : String × Nat × String × Nat → Nat) (a b : PeptideQuery),
      (pepQueryEq a b = true ∧ pepQueryHash h a = pepQueryHash h b) ↔
        a.uniqueTuple = b.uniqueTuple := by
  intro h a b
  constructor
  · intro hpair
    exact of_decide_eq_true hpair.1
  · intro ht
    refine ⟨decide_eq_true ht, ?_⟩
    unfold pepQueryHash
    rw [ht]

/-- C9 (witness): two records agreeing on the identity tuple but differing
in protein description, precursor m/z, charge and modification lists are
equal and hash equal; changing only the scan breaks equality. -/
theorem c9_identity_tuple_equality_witness :
    (pepQueryEq (mkPeptideQuery "P1" "descA" 3 "f.raw" 100 2 "SAM" [] [] 7)
        (mkPeptideQuery "P1" "descB" 3 "g.raw" 200 3 "SAM"
          [(1, "Oxidation", PySeq.tup ["M"])] [] 7) = true ∧
      pepQueryHash (fun t => t.2.2.2)
        (mkPeptideQuery "P1" "descA" 3 "f.raw" 100 2 "SAM" [] [] 7) =
      pepQueryHash (fun t => t.2.2.2)
        (mkPeptideQuery "P1" "descB" 3 "g.raw" 200 3 "SAM"
          [(1, "Oxidation", PySeq.tup ["M"])] [] 7)) ∧
    pepQueryEq (mkPeptideQuery "P1" "descA" 3 "f.raw" 100 2 "SAM" [] [] 7)
      (mkPeptideQuery "P1" "descA" 3 "f.raw" 100 2 "SAM" [] [] 8) = false :=
  ⟨(c9_identity_tuple_equality (fun t => t.2.2.2)
      (mkPeptideQuery "P1" "descA" 3 "f.raw" 100 2 "SAM" [] [] 7)
      (mkPeptideQuery "P1" "descB" 3 "g.raw" 200 3 "SAM"
        [(1, "Oxidation", PySeq.tup ["M"])] [] 7)).mpr (by rfl),
   by rfl⟩

/-- C10: `_find_mod` tests membership by substring containment on the raw
site-list string, so an internal-residue hit on 'N' matches a spec whose
site list is the literal "N-term" (and a 'C' hit matches "C-term"), and is
classified rather than rejected; the third conjunct exhibits the raw pool
entry produced by `RE_DYN_MODS` for such a declaration. -/
theorem c10_terminal_substring_match :
    resolveHit "Amidated" "N" [("Amidated", "N-term")] [] =
      Except.ok (true, ("Amidated", "N-term")) ∧
    resolveHit "MyMod" "C" [] [("MyMod", "C-term")] =
      Except.ok (false, ("MyMod", "C-term")) ∧
    parseDynMod "Amidated (N-term)" = some ("Amidated", "N-term") := by
  exact ⟨rfl, rfl, rfl⟩
